import Mathlib

/-!
Verification development for the `nmis_dpp` Digital Product Passport core.

This file gives a shallow embedding, in Lean 4, of the parts of the
repository relevant to the frozen claims:

* `nmis_dpp/part_class.py` — `OntologyBinding`, `PartClass.bind_ontology`
  and friends (Python dicts become association lists; Python set-union
  dedup becomes `List.dedup` of the concatenation, which has the same
  underlying set).
* `nmis_dpp/schema_base.py` — the `SchemaMapper` abstraction and its
  `map_dpp` orchestration (Python exceptions become `Except`).
* `nmis_dpp/schema_registry.py` — `SchemaRegistry` with its alias table,
  config cache and instance cache (object identity of constructed mapper
  instances is modelled by an allocation counter stored in the registry).
* `nmis_dpp/eclass_build_mapping.py` and `nmis_dpp/isa95_build_mapping.py`
  — keyword tables, `domain_score`, the classifiers and the mapping-table
  builders, plus the batch entrypoints (the filesystem a batch run sees is
  passed in as data).
* `nmis_dpp/mappers/isa95_mapper.py` — the concrete `ISA95Mapper`.
-/

set_option maxHeartbeats 1000000

namespace NmisDpp

/-! ## Association-list model of Python `dict`

Python dict semantics used by the code: lookup returns the value stored at
a key; assignment to an existing key replaces its value in place (keeping
its position in iteration order); assignment to a fresh key appends it.
-/

/-- Lookup in an association list (Python `d.get(k)` / `d[k]`). -/
def getKey? {β : Type} : List (String × β) → String → Option β
  | [], _ => none
  | (k1, v1) :: rest, k => if k1 = k then some v1 else getKey? rest k

/-- Store a value at a key (Python `d[k] = v`): replace in place if the key
is present, else append at the end. -/
def setKey {β : Type} : List (String × β) → String → β → List (String × β)
  | [], k, v => [(k, v)]
  | (k1, v1) :: rest, k, v =>
      if k1 = k then (k, v) :: rest else (k1, v1) :: setKey rest k v

/-- Python `old.update(new)`: store every pair of `new` into `old`, in order. -/
def dictUpdate {β : Type} (old new : List (String × β)) : List (String × β) :=
  new.foldl (fun acc p => setKey acc p.1 p.2) old

/-! ## `nmis_dpp/part_class.py` -/

/-- Free-form metadata dictionaries (`Dict[str, Any]`); values are modelled
as strings, which is enough for every claim. -/
abbrev Metadata := List (String × String)

/-- Embeds the `OntologyBinding` dataclass. -/
structure OntologyBinding where
  ontology_name : String
  class_ids : List String
  case_item_ids : List String
  metadata : Metadata
deriving DecidableEq, Repr

/-- Embeds the `PartClass` dataclass (base part model). -/
structure PartClass where
  part_id : String
  name : String
  type : String
  properties : Metadata
  ontology_bindings : List (String × OntologyBinding)
deriving DecidableEq, Repr

/-- The merge branch of `PartClass.bind_ontology`: for each of `class_ids`
and `case_item_ids`, a Python `list({*existing, *new})` (set union, so the
result is duplicate-free; order is not significant and is modelled by
`List.dedup` of the concatenation); `metadata` is updated key-by-key only
when the argument is truthy (`if metadata:`). -/
def mergeBinding (existing : OntologyBinding) (class_ids case_item_ids : Option (List String))
    (metadata : Option Metadata) : OntologyBinding :=
  { existing with
    class_ids :=
      (match class_ids with
       | none => existing.class_ids
       | some l => (existing.class_ids ++ l).dedup)
    case_item_ids :=
      (match case_item_ids with
       | none => existing.case_item_ids
       | some l => (existing.case_item_ids ++ l).dedup)
    metadata :=
      (match metadata with
       | none => existing.metadata
       | some m => if m = [] then existing.metadata else dictUpdate existing.metadata m) }

/-- Embeds `PartClass.bind_ontology`: create the binding from the given
values on first call (missing lists default to empty), merge on later calls. -/
def PartClass.bind_ontology (p : PartClass) (ontology_name : String)
    (class_ids : Option (List String)) (case_item_ids : Option (List String))
    (metadata : Option Metadata) : PartClass :=
  match getKey? p.ontology_bindings ontology_name with
  | none =>
      let binding : OntologyBinding :=
        { ontology_name := ontology_name
          class_ids := class_ids.getD []
          case_item_ids := case_item_ids.getD []
          metadata := metadata.getD [] }
      { p with ontology_bindings := setKey p.ontology_bindings ontology_name binding }
  | some existing =>
      let merged := mergeBinding existing class_ids case_item_ids metadata
      { p with ontology_bindings := setKey p.ontology_bindings ontology_name merged }

/-- Embeds `PartClass.get_binding`. -/
def PartClass.get_binding (p : PartClass) (ontology_name : String) : Option OntologyBinding :=
  getKey? p.ontology_bindings ontology_name

/-- Embeds `PartClass.allowed_item_types`. -/
def PartClass.allowed_item_types (p : PartClass) (ontology_name : String) : List String :=
  match p.get_binding ontology_name with
  | none => []
  | some b => b.case_item_ids

/-- Embeds `PartClass.supported_ontologies`. -/
def PartClass.supported_ontologies (p : PartClass) : List String :=
  p.ontology_bindings.map Prod.fst

/-! ## Shared string helpers (Python `str.lower` and `in`)

Python's `str.lower` is modelled on the ASCII range by `Char.toLower`
applied characterwise; `sub in text` is the substring test. -/

/-- Python `s.lower()` (characterwise, ASCII case). -/
def pyLower (s : String) : String := ⟨s.data.map Char.toLower⟩

/-- Python `sub in text`: `sub` occurs as a contiguous substring of `text`. -/
def pyIn (sub text : String) : Bool :=
  text.data.tails.any fun t => sub.data.isPrefixOf t

/-! ## `nmis_dpp/eclass_build_mapping.py` — keyword table and scoring -/

/-- Embeds `DOMAIN_KEYWORDS` of `eclass_build_mapping.py` (iteration order
of the Python dict is the textual order below). -/
def ECLASS_DOMAIN_KEYWORDS : List (String × List String) :=
  [("PowerConversion",
    ["power supply", "power-supply", "power converter", "ac/dc converter", "dc/dc converter",
     "inverter", "rectifier", "uninterruptible power supply", "ups", "transformer"]),
   ("EnergyStorage",
    ["battery", "accumulator", "energy storage", "cell", "capacitor", "supercapacitor"]),
   ("Actuator",
    ["actuator", "drive", "servo", "motion", "positioning", "valve actuator"]),
   ("Sensor",
    ["sensor", "transducer", "measuring device", "detector", "measurement",
     "temperature sensor", "pressure sensor", "flow sensor", "position sensor",
     "vibration sensor"]),
   ("ControlUnit",
    ["controller", "control unit", "logic controller", "plc", "control system",
     "control device"]),
   ("UserInterface",
    ["user interface", "operator panel", "display", "hmi", "control panel", "keypad"]),
   ("Thermal",
    ["heating", "cooling", "thermal", "heat exchanger", "radiator", "heater", "fan"]),
   ("Fluidics",
    ["fluid", "hydraulic", "pneumatic", "pump", "valve", "compressor"]),
   ("Structural",
    ["structural", "frame", "housing", "support", "chassis", "enclosure", "bracket"]),
   ("Transmission",
    ["gear", "gearing", "drive shaft", "drivetrain", "belt drive", "chain drive",
     "coupling", "bearing"]),
   ("Protection",
    ["protection device", "fuse", "circuit breaker", "breaker", "protector",
     "surge protector", "overcurrent", "overvoltage"]),
   ("Connectivity",
    ["connector", "plug", "socket", "cable", "terminal block", "interface", "bus system"]),
   ("SoftwareModule",
    ["software", "firmware", "program", "control software", "software module"]),
   ("Consumable",
    ["consumable", "filter", "lubricant", "oil", "grease", "sealant", "cleaning agent"]),
   ("Fastener",
    ["fastener", "screw", "bolt", "nut", "washer", "rivet", "anchor bolt"])]

/-- Embeds `MIN_SCORE` of `eclass_build_mapping.py`. -/
def MIN_SCORE_ECLASS : Nat := 2

/-- Embeds `DOMAIN_KEYWORDS` of `isa95_build_mapping.py`. -/
def ISA95_DOMAIN_KEYWORDS : List (String × List String) :=
  [("PowerConversion",
    ["transformer", "inverter", "rectifier", "power supply", "power-supply", "converter",
     "converter unit", "ac/dc", "dc/dc", "uninterruptible power supply", "ups",
     "voltage regulator", "energy", "power"]),
   ("EnergyStorage",
    ["battery", "energy storage", "accumulator", "cell", "storage tank", "reservoir",
     "silo", "storage", "storage zone", "storage unit"]),
   ("Actuator",
    ["actuator", "drive", "servo", "motion", "positioning", "valve actuator",
     "controlled element", "mechanical output", "execution"]),
   ("Sensor",
    ["sensor", "transducer", "measuring device", "detector", "measurement",
     "measurement device", "instrument", "test", "sample", "quality", "result", "value"]),
   ("ControlUnit",
    ["controller", "control unit", "control system", "control function", "logic controller",
     "plc", "programmable controller", "automation controller", "control", "module",
     "logic", "capability", "process code"]),
   ("UserInterface",
    ["user interface", "operator", "hmi", "display", "panel", "annunciator", "alarm panel",
     "operator station", "person", "personnel", "individual"]),
   ("Thermal",
    ["heating", "cooling", "thermal", "heat exchanger", "furnace", "oven", "kiln",
     "heater", "cooler", "temperature"]),
   ("Fluidics",
    ["pump", "compressor", "valve", "pipeline", "pipe", "duct", "fluid", "hydraulic",
     "pneumatic", "liquid", "gas", "flow"]),
   ("Structural",
    ["structure", "frame", "support", "foundation", "housing", "enclosure", "chassis",
     "platform", "physical asset", "asset", "class"]),
   ("Transmission",
    ["gear", "gearbox", "transmission", "drive train", "belt drive", "chain drive",
     "shaft", "coupling", "bearing", "assembly"]),
   ("Protection",
    ["protection", "protective", "fuse", "circuit breaker", "breaker", "protector",
     "safety device", "interlock", "safety interlock", "safety", "alarm", "alert",
     "security"]),
   ("Connectivity",
    ["connector", "connection", "terminal", "terminal block", "i/o point",
     "communication link", "network connection", "bus", "fieldbus", "network",
     "resource network", "interface"]),
   ("SoftwareModule",
    ["software", "software component", "application", "program", "execution logic",
     "algorithm", "recipe logic", "job", "order", "command", "transaction", "dispatch"]),
   ("Consumable",
    ["consumable", "material", "ingredient", "feedstock", "raw material", "lubricant",
     "cleaning", "consumed", "produced", "lot", "sublot", "inventory", "bill of material"]),
   ("Fastener",
    ["fastener", "bolt", "screw", "nut", "washer", "anchor", "clamp", "joint"])]

/-- Embeds `MIN_SCORE` of `isa95_build_mapping.py`. -/
def MIN_SCORE_ISA95 : Nat := 1

/-- Embeds `domain_score` (identical in both build scripts, here parametric
in the keyword table): count the keywords of the domain occurring as a
case-insensitive substring of the text. -/
def domain_score (keywords : List (String × List String)) (definition : String)
    (domain : String) : Nat :=
  let text := pyLower definition
  ((getKey? keywords domain).getD []).countP fun kw => pyIn (pyLower kw) text

/-- `domain_score` of `eclass_build_mapping.py`. -/
def eclass_domain_score (definition domain : String) : Nat :=
  domain_score ECLASS_DOMAIN_KEYWORDS definition domain

/-- `domain_score` of `isa95_build_mapping.py`. -/
def isa95_domain_score (description domain : String) : Nat :=
  domain_score ISA95_DOMAIN_KEYWORDS description domain

/-- Python `max(scores, key=scores.get)` over the items of the `scores`
dict: the fold keeps the current maximum and replaces it only on a strictly
greater score, so on ties the earlier item wins, exactly as CPython's
`max`. -/
def maxByScore (x : String × Nat) (xs : List (String × Nat)) : String × Nat :=
  xs.foldl (fun acc y => if y.2 > acc.2 then y else acc) x

/-- Common body of `classify_domain_for_class` (ECLASS) and
`classify_domain` (ISA-95): collect the positive per-domain scores in table
order, return `None` if there are none, otherwise take the first maximum
and require it to reach `min_score`. -/
def classify_domain_generic (keywords : List (String × List String)) (min_score : Nat)
    (definition : String) : Option String :=
  let scores :=
    (keywords.map fun p => (p.1, domain_score keywords definition p.1)).filter
      fun p => p.2 > 0
  match scores with
  | [] => none
  | x :: xs =>
      let best := maxByScore x xs
      if best.2 < min_score then none else some best.1

/-- Embeds `classify_domain_for_class` of `eclass_build_mapping.py`. -/
def classify_domain_for_class (definition : String) : Option String :=
  classify_domain_generic ECLASS_DOMAIN_KEYWORDS MIN_SCORE_ECLASS definition

/-- Embeds `classify_domain` of `isa95_build_mapping.py`. -/
def classify_domain (description : String) : Option String :=
  classify_domain_generic ISA95_DOMAIN_KEYWORDS MIN_SCORE_ISA95 description

/-! ## `nmis_dpp/eclass_build_mapping.py` — parsed classes and table builder -/

/-- One entry of `classes_by_id` as produced by `parse_eclass_xml`:
`{id, name, type, definition}` for CATEGORIZATION classes, plus `case_of`
for ITEM classes (empty for CATEGORIZATION). -/
structure EclassClass where
  id : String
  name : String
  type : String
  definition : String
  case_of : List String
deriving DecidableEq, Repr

/-- Python `sorted` on a list of strings (insertion sort by `≤`). -/
def sortStrings (l : List String) : List String :=
  List.insertionSort (fun a b : String => a ≤ b) l

/-- First loop of `build_domain_mapping`: the `domain_for_class` dict,
mapping each CATEGORIZATION class id to its classified domain (ids whose
classification is `None` are absent). -/
def domain_for_class (classes_by_id : List (String × EclassClass)) : List (String × String) :=
  classes_by_id.filterMap fun pr =>
    if pr.2.type = "CATEGORIZATION" then
      (classify_domain_for_class pr.2.definition).map fun dm => (pr.1, dm)
    else none

/-- Second loop of `build_domain_mapping`, restricted to one domain: the
`eclass_classes` dict of that domain's mapping entry (iterating
`domain_for_class`, keeping the ids assigned to `domain`, looking each id
up in `classes_by_id` and skipping missing ids). -/
def eclass_classes_for (classes_by_id : List (String × EclassClass)) (domain : String) :
    List (String × EclassClass) :=
  (domain_for_class classes_by_id).filterMap fun pr =>
    if pr.2 = domain then
      (getKey? classes_by_id pr.1).map fun cls => (pr.1, cls)
    else none

/-- One value of the `part_class_mapping` dict built by
`build_domain_mapping` of `eclass_build_mapping.py`. -/
structure EclassMapping where
  domain_class : String
  eclass_class_ids : List String
  eclass_case_item_ids : List String
  eclass_classes : List (String × EclassClass)
deriving DecidableEq, Repr

/-- The `part_class_mapping` value that `build_domain_mapping` ends up
storing for one domain: the classified CATEGORIZATION classes of the
domain, and the sorted set-union of the ITEM ids that are case-of one of
them (`eclass_class_ids` is kept empty by the source "for schema
compatibility"). -/
def domain_mapping_entry (classes_by_id : List (String × EclassClass))
    (case_of_mapping : List (String × List String)) (domain : String) : EclassMapping :=
  let cls_d := eclass_classes_for classes_by_id domain
  let items := (cls_d.map Prod.fst).flatMap fun base => (getKey? case_of_mapping base).getD []
  { domain_class := domain
    eclass_class_ids := []
    eclass_case_item_ids := sortStrings items.dedup
    eclass_classes := cls_d }

/-- Embeds `build_domain_mapping` of `eclass_build_mapping.py` (one entry
per domain, in keyword-table order). -/
def build_domain_mapping (classes_by_id : List (String × EclassClass))
    (case_of_mapping : List (String × List String)) : List (String × EclassMapping) :=
  ECLASS_DOMAIN_KEYWORDS.map fun p =>
    (p.1, domain_mapping_entry classes_by_id case_of_mapping p.1)

/-- Sample `classes_by_id` input for the classifier-table witness: one
CATEGORIZATION class and one ITEM class declaring itself case-of it. -/
def c8_classes : List (String × EclassClass) :=
  [("c1", ⟨"c1", "Pressure sensors", "CATEGORIZATION",
      "pressure sensor for flow measurement", []⟩),
   ("i1", ⟨"i1", "Pressure transmitter", "ITEM", "", ["c1"]⟩)]

/-- Sample `case_of_mapping` input for the classifier-table witness. -/
def c8_case_of : List (String × List String) := [("c1", ["i1"])]

/-- The mapping entry `build_domain_mapping` produces for the `Sensor`
domain on the sample inputs. -/
def c8_entry : EclassMapping :=
  ⟨"Sensor", [], ["i1"],
   [("c1", ⟨"c1", "Pressure sensors", "CATEGORIZATION",
       "pressure sensor for flow measurement", []⟩)]⟩

/-! ## `nmis_dpp/model.py` and `nmis_dpp/schema_base.py`

Python values (`Any`) are modelled by `PyVal`; Python exceptions by `Exn`
with fallible computations in `Except Exn`; the mapped document (a dict
with fixed keys holding strings and layer fragments) by `Doc`. -/

/-- JSON-like Python values. -/
inductive PyVal : Type where
  | pynone
  | str (s : String)
  | list (xs : List PyVal)
  | dict (entries : List (String × PyVal))

/-- Python exceptions: `ValueError` (raised by `map_dpp` on validation
failure) and any other raised exception, identified by a tag. -/
inductive Exn : Type where
  | valueError (msg : String)
  | raised (tag : String)
deriving DecidableEq, Repr

/-- A value stored in the mapped document: a plain string (for `schema` /
`schema_version`) or a layer/context fragment. -/
inductive DocVal : Type where
  | str (s : String)
  | frag (v : PyVal)

/-- The mapped document assembled by `map_dpp`. -/
abbrev Doc := List (String × DocVal)

/-- Embeds `IdentityLayer` of `model.py`. -/
structure IdentityLayer where
  global_ids : List (String × String)
  make_model : List (String × String)
  ownership : List (String × String)
  conformity : List String

/-- Embeds `StructureLayer` of `model.py`. -/
structure StructureLayer where
  hierarchy : List (String × PyVal)
  parts : List PartClass
  interfaces : List PyVal
  materials : List PyVal
  bom_refs : List String

/-- Embeds `LifecycleLayer` of `model.py`. -/
structure LifecycleLayer where
  manufacture : List (String × PyVal)
  use : List (String × PyVal)
  serviceability : List (String × PyVal)
  events : List PyVal
  end_of_life : List (String × PyVal)

/-- Embeds `RiskLayer` of `model.py`. -/
structure RiskLayer where
  criticality : List (String × PyVal)
  fmea : List PyVal
  security : List (String × PyVal)

/-- Embeds `SustainabilityLayer` of `model.py`. -/
structure SustainabilityLayer where
  mass : PyVal
  energy : List (String × PyVal)
  recycled_content : List (String × PyVal)
  remanufacture : List (String × PyVal)

/-- Embeds `ProvenanceLayer` of `model.py`. -/
structure ProvenanceLayer where
  signatures : List PyVal
  trace_links : List String

/-- Embeds `DigitalProductPassport` of `model.py` (the `structure` layer
field is called `structure_` because `structure` is a Lean keyword). -/
structure DigitalProductPassport where
  identity : IdentityLayer
  structure_ : StructureLayer
  lifecycle : LifecycleLayer
  risk : RiskLayer
  sustainability : SustainabilityLayer
  provenance : ProvenanceLayer

/-- Embeds the `SchemaMapper` interface of `schema_base.py`: a record of
the abstract operations a concrete mapper provides. Each operation is a
Python call that may raise, hence `Except Exn`. -/
structure SchemaMapper where
  get_schema_name : Except Exn String
  get_schema_version : Except Exn String
  get_context : Except Exn PyVal
  map_identity_layer : IdentityLayer → Except Exn PyVal
  map_structure_layer : StructureLayer → Except Exn PyVal
  map_lifecycle_layer : LifecycleLayer → Except Exn PyVal
  map_risk_layer : RiskLayer → Except Exn PyVal
  map_sustainability_layer : SustainabilityLayer → Except Exn PyVal
  map_provenance_layer : ProvenanceLayer → Except Exn PyVal
  validate_mapping : Doc → Except Exn (Bool × List String)

/-- Python `sep.join(strings)`. -/
def joinSep (sep : String) : List String → String
  | [] => ""
  | [x] => x
  | x :: xs => x ++ sep ++ joinSep sep xs

/-- The dict-literal assembly step of `SchemaMapper.map_dpp`: evaluate the
schema name, version, context and the six layer-mapping calls in source
order; the first raised exception aborts the assembly. -/
def assembleDoc (m : SchemaMapper) (dpp : DigitalProductPassport) : Except Exn Doc := do
  let name ← m.get_schema_name
  let ver ← m.get_schema_version
  let ctx ← m.get_context
  let ident ← m.map_identity_layer dpp.identity
  let struct ← m.map_structure_layer dpp.structure_
  let life ← m.map_lifecycle_layer dpp.lifecycle
  let risk ← m.map_risk_layer dpp.risk
  let sust ← m.map_sustainability_layer dpp.sustainability
  let prov ← m.map_provenance_layer dpp.provenance
  pure [("schema", DocVal.str name), ("schema_version", DocVal.str ver),
        ("@context", DocVal.frag ctx), ("identity", DocVal.frag ident),
        ("structure", DocVal.frag struct), ("lifecycle", DocVal.frag life),
        ("risk", DocVal.frag risk), ("sustainability", DocVal.frag sust),
        ("provenance", DocVal.frag prov)]

/-- Embeds `SchemaMapper.map_dpp`: assemble the document, validate it,
raise `ValueError` with the joined error list if invalid, otherwise return
the document; the `try/except` of the source only logs and re-raises, so
every exception propagates unchanged. -/
def map_dpp (m : SchemaMapper) (dpp : DigitalProductPassport) : Except Exn Doc := do
  let mapped ← assembleDoc m dpp
  let vres ← m.validate_mapping mapped
  if vres.1 then pure mapped
  else Except.error (Exn.valueError ("Validation failed: " ++ joinSep "; " vres.2))

/-! ## `nmis_dpp/mappers/isa95_mapper.py` -/

/-- Render an optional string the way Python renders the value inside a
dict (`None` for a missing one). -/
def pyOptStr : Option String → PyVal
  | some s => PyVal.str s
  | none => PyVal.pynone

/-- Python `a or b` on two optional strings: `b` whenever `a` is `None` or
empty (falsy). -/
def pyOr (a b : Option String) : PyVal :=
  match a with
  | some s => if s = "" then pyOptStr b else PyVal.str s
  | none => pyOptStr b

/-- Python f-string rendering of an optional string (`None` when absent). -/
def fmtOpt : Option String → String
  | some s => s
  | none => "None"

/-- One value of the `domain_mappings` table of an ISA-95 mapper config
(only the `isa95_type_ids` key is consulted by the mapper; a missing key
reads as the empty list). -/
structure Isa95DomainMap where
  isa95_type_ids : List String

/-- The ISA-95 mapper configuration, modelled as its `domain_mappings`
table (`config.get("domain_mappings", {})` of a well-shaped config). -/
abbrev Isa95Config := List (String × Isa95DomainMap)

namespace ISA95Mapper

/-- Embeds `ISA95Mapper.get_schema_name`. -/
def get_schema_name : String := "ISA-95"

/-- Embeds `ISA95Mapper.get_schema_version`. -/
def get_schema_version : String := "V0600"

/-- Embeds `ISA95Mapper.get_context`. -/
def get_context : PyVal :=
  PyVal.dict [("isa95", PyVal.str "http://www.mesa.org/xml/B2MML-V0600")]

/-- Embeds `ISA95Mapper.map_identity_layer`. -/
def map_identity_layer (layer : IdentityLayer) : PyVal :=
  PyVal.dict
    [("ID", pyOr (getKey? layer.global_ids "gtin") (getKey? layer.global_ids "serial")),
     ("Description", PyVal.str (fmtOpt (getKey? layer.make_model "brand") ++ " " ++
        fmtOpt (getKey? layer.make_model "model"))),
     ("EquipmentLevel", PyVal.str "Unit")]

/-- Embeds `ISA95Mapper.map_part_class`: equipment class from the part's
ISA-95 binding if it has a truthy first class id, else from the config's
domain-mapping table for the part type; properties become
`EquipmentProperty` entries. -/
def map_part_class (config : Isa95Config) (part : PartClass) : PyVal :=
  let fromBinding : Option String :=
    match part.get_binding "ISA-95" with
    | some b =>
        match b.class_ids with
        | x :: _ => some x
        | [] => none
    | none => none
  let fromConfig : Option String :=
    match getKey? config part.type with
    | some dm =>
        match dm.isa95_type_ids with
        | x :: _ => some x
        | [] => none
    | none => none
  let equipment_class : Option String :=
    match fromBinding with
    | some s =>
        if s = "" then
          (match fromConfig with
           | some c => some c
           | none => some s)
        else some s
    | none => fromConfig
  PyVal.dict
    [("ID", PyVal.str part.part_id),
     ("EquipmentClassID", pyOptStr equipment_class),
     ("Description", PyVal.str part.name),
     ("Properties", PyVal.list (part.properties.map fun kv =>
        PyVal.dict [("ID", PyVal.str kv.1), ("Value", PyVal.list [PyVal.str kv.2])]))]

/-- Embeds `ISA95Mapper.map_structure_layer`. -/
def map_structure_layer (config : Isa95Config) (layer : StructureLayer) : PyVal :=
  PyVal.dict
    [("Hierarchy", PyVal.dict layer.hierarchy),
     ("NestedEquipment", PyVal.list (layer.parts.map (map_part_class config)))]

/-- Embeds `ISA95Mapper.map_lifecycle_layer`. -/
def map_lifecycle_layer (layer : LifecycleLayer) : PyVal :=
  PyVal.dict
    [("WorkOrder", (getKey? layer.manufacture "lot").getD PyVal.pynone),
     ("ProductionDate", (getKey? layer.manufacture "date").getD PyVal.pynone)]

/-- Embeds `ISA95Mapper.map_risk_layer`. -/
def map_risk_layer (_ : RiskLayer) : PyVal := PyVal.dict []

/-- Embeds `ISA95Mapper.map_sustainability_layer`. -/
def map_sustainability_layer (_ : SustainabilityLayer) : PyVal := PyVal.dict []

/-- Embeds `ISA95Mapper.map_provenance_layer`. -/
def map_provenance_layer (_ : ProvenanceLayer) : PyVal := PyVal.dict []

/-- Python `mapped_data.get("schema") == "ISA-95"`. -/
def isSchemaIsa95 (v : Option DocVal) : Bool :=
  match v with
  | some (DocVal.str s) => s = "ISA-95"
  | _ => false

/-- Embeds `ISA95Mapper.validate_mapping`: the only check is that the
document's `schema` key equals `"ISA-95"`. -/
def validate_mapping (mapped_data : Doc) : Bool × List String :=
  let errors : List String :=
    if isSchemaIsa95 (getKey? mapped_data "schema") then [] else ["Schema mismatch"]
  (errors.length == 0, errors)

end ISA95Mapper

/-- The `ISA95Mapper` instance constructed with a given config, as a
`SchemaMapper` record: every method is a total Python function here, so
each call returns normally. -/
def isa95_mapper (config : Isa95Config) : SchemaMapper :=
  { get_schema_name := Except.ok ISA95Mapper.get_schema_name
    get_schema_version := Except.ok ISA95Mapper.get_schema_version
    get_context := Except.ok ISA95Mapper.get_context
    map_identity_layer := fun l => Except.ok (ISA95Mapper.map_identity_layer l)
    map_structure_layer := fun l => Except.ok (ISA95Mapper.map_structure_layer config l)
    map_lifecycle_layer := fun l => Except.ok (ISA95Mapper.map_lifecycle_layer l)
    map_risk_layer := fun l => Except.ok (ISA95Mapper.map_risk_layer l)
    map_sustainability_layer := fun l => Except.ok (ISA95Mapper.map_sustainability_layer l)
    map_provenance_layer := fun l => Except.ok (ISA95Mapper.map_provenance_layer l)
    validate_mapping := fun d => Except.ok (ISA95Mapper.validate_mapping d) }

/-- Sample passport used by the mapper witnesses. -/
def sampleDpp : DigitalProductPassport :=
  { identity := ⟨[("gtin", "123")], [("brand", "NMIS"), ("model", "X")], [], ["CE"]⟩
    structure_ := ⟨[], [], [], [], []⟩
    lifecycle := ⟨[("lot", PyVal.str "L1")], [], [], [], []⟩
    risk := ⟨[], [], []⟩
    sustainability := ⟨PyVal.pynone, [], [], []⟩
    provenance := ⟨[], []⟩ }

/-- A mapper whose validation reports valid (for the C2 witness). -/
def goodMapper : SchemaMapper :=
  { get_schema_name := Except.ok "GOOD"
    get_schema_version := Except.ok "1"
    get_context := Except.ok (PyVal.dict [])
    map_identity_layer := fun _ => Except.ok (PyVal.dict [])
    map_structure_layer := fun _ => Except.ok (PyVal.dict [])
    map_lifecycle_layer := fun _ => Except.ok (PyVal.dict [])
    map_risk_layer := fun _ => Except.ok (PyVal.dict [])
    map_sustainability_layer := fun _ => Except.ok (PyVal.dict [])
    map_provenance_layer := fun _ => Except.ok (PyVal.dict [])
    validate_mapping := fun _ => Except.ok (true, []) }

/-- A mapper whose validation reports invalid with two errors (for the C3
witness). -/
def badMapper : SchemaMapper :=
  { goodMapper with validate_mapping := fun _ => Except.ok (false, ["e1", "e2"]) }

/-- A mapper whose risk-layer call raises (for the C3 witness). -/
def raiseMapper : SchemaMapper :=
  { goodMapper with map_risk_layer := fun _ => Except.error (Exn.raised "boom") }

/-- A mapper whose validation call itself raises (for the C3 witness). -/
def valRaiseMapper : SchemaMapper :=
  { goodMapper with validate_mapping := fun _ => Except.error (Exn.raised "vboom") }

/-! ## `nmis_dpp/schema_registry.py`

The YAML files the registry can see are modelled as a function from file
name to `FileRead`; Python object identity of constructed mapper instances
is modelled by an allocation counter `nextId` carried in the registry. -/

/-- What reading one config file yields: the file is absent, it exists but
fails to parse, or it parses to `yaml.safe_load`'s result (`none` models a
YAML `null`, turned into an empty config by the source's `or {}`). -/
inductive FileRead : Type where
  | absent
  | parseError
  | parsed (v : Option (List (String × PyVal)))

/-- A per-schema configuration dictionary. -/
abbrev RegConfig := List (String × PyVal)

/-- A value of the `_mappers` table: an eagerly registered mapper class, or
a lazy loader that, when called, either returns the class or raises a
`TypeError` (modelled by `Except RegErr`). -/
inductive MapperFactory : Type where
  | cls (className : String)
  | lazyLoader (result : Except (String × List String) String)

/-- Errors raised by `SchemaRegistry.get_mapper`: the `KeyError` for an
unregistered schema carries the looked-up name and the list of registered
canonical names (the source interpolates both into the message), and the
`TypeError` from a lazy loader carries its message. -/
inductive RegErr : Type where
  | keyError (name : String) (available : List String)
  | typeError (msg : String)

/-- An instantiated mapper: `objId` is the allocation identity (Python
`is`), `className` the mapper class, `config` the config it was built
with. -/
structure MapperInst where
  objId : Nat
  className : String
  config : RegConfig

/-- Embeds the `SchemaRegistry` state: the four tables plus the config
directory contents (`fs`) and the allocation counter. -/
structure SchemaRegistry where
  fs : String → FileRead
  mappers : List (String × MapperFactory)
  aliases : List (String × String)
  instances : List (String × MapperInst)
  configs : List (String × RegConfig)
  nextId : Nat

/-- Core of Python `str.replace` on char lists: substitute `repl` for each
leftmost, non-overlapping occurrence of `pat`; `skip` counts characters
still covered by the occurrence just replaced. -/
def replaceGo (pat repl : List Char) : List Char → Nat → List Char
  | [], _ => []
  | c :: cs, skip =>
      match skip with
      | k + 1 => replaceGo pat repl cs k
      | 0 =>
          if pat.isPrefixOf (c :: cs) then repl ++ replaceGo pat repl cs (pat.length - 1)
          else c :: replaceGo pat repl cs 0

/-- Python `s.replace(pat, repl)`. -/
def pyReplace (s pat repl : String) : String :=
  ⟨replaceGo pat.data repl.data s.data 0⟩

/-- Embeds `SchemaRegistry._resolve_canonical_name`: map an alias to its
canonical name, pass anything else through. -/
def SchemaRegistry.resolve_canonical_name (reg : SchemaRegistry) (name_or_alias : String) :
    String :=
  (getKey? reg.aliases name_or_alias).getD name_or_alias

/-- The conventional config file name for a canonical schema name:
lowercase, dashes removed, suffixed `_mapping.yml`. -/
def configFileName (canonical_name : String) : String :=
  pyReplace (pyLower canonical_name) "-" "" ++ "_mapping.yml"

/-- Embeds `SchemaRegistry._load_config`: serve from the config cache, else
read the conventional file; a missing or unparsable file degrades to an
empty config (cached as such) — the function is total, it never raises. -/
def SchemaRegistry.load_config (reg : SchemaRegistry) (canonical_name : String) :
    RegConfig × SchemaRegistry :=
  match getKey? reg.configs canonical_name with
  | some cfg => (cfg, reg)
  | none =>
      match reg.fs (configFileName canonical_name) with
      | FileRead.absent =>
          ([], { reg with configs := setKey reg.configs canonical_name [] })
      | FileRead.parseError =>
          ([], { reg with configs := setKey reg.configs canonical_name [] })
      | FileRead.parsed v =>
          (v.getD [], { reg with configs := setKey reg.configs canonical_name (v.getD []) })

/-- Embeds `SchemaRegistry.get_mapper`: resolve the alias first; fail with
`KeyError` (listing the registered canonical names) if the canonical name
is unregistered; serve the cached instance unless `force_reload`; otherwise
resolve the factory (running a lazy loader, whose `TypeError` propagates),
load the config, construct a fresh instance and cache it. -/
def SchemaRegistry.get_mapper (reg : SchemaRegistry) (name_or_alias : String)
    (force_reload : Bool) : Except RegErr (MapperInst × SchemaRegistry) :=
  let canonical := reg.resolve_canonical_name name_or_alias
  match getKey? reg.mappers canonical with
  | none => Except.error (RegErr.keyError name_or_alias (reg.mappers.map Prod.fst))
  | some factory =>
      match force_reload, getKey? reg.instances canonical with
      | false, some inst => Except.ok (inst, reg)
      | _, _ =>
          let clsE : Except RegErr String :=
            match factory with
            | MapperFactory.cls c => Except.ok c
            | MapperFactory.lazyLoader r =>
                match r with
                | Except.ok c => Except.ok c
                | Except.error e => Except.error (RegErr.typeError (e.1 ++ " in " ++
                    joinSep ", " e.2))
          match clsE with
          | Except.error e => Except.error e
          | Except.ok cls =>
              let loaded := reg.load_config canonical
              let mapper : MapperInst := ⟨loaded.2.nextId, cls, loaded.1⟩
              Except.ok (mapper,
                { loaded.2 with
                  instances := setKey loaded.2.instances canonical mapper
                  nextId := loaded.2.nextId + 1 })

/-! ## Batch entrypoints of the two build scripts (C9) -/

/-- One `ontoml:class` element of an ECLASS XML file, with the attributes
and child texts `parse_eclass_xml` extracts (`preferred_name` is `none`
when the label is missing or empty, matching the source's truthiness
test). -/
structure EclassXmlClass where
  id : Option String
  xsi_type : String
  preferred_name : Option String
  definition : String
  case_refs : List String

/-- Python `m.setdefault(k, []).append(v)`. -/
def appendAtKey (m : List (String × List String)) (k v : String) :
    List (String × List String) :=
  match getKey? m k with
  | some l => setKey m k (l ++ [v])
  | none => setKey m k [v]

/-- The per-element body of the `parse_eclass_xml` loops: skip elements
with a falsy id, store CATEGORIZATION and ITEM classes in `classes_by_id`
(later duplicates overwrite), and extend `case_of_mapping` with each ITEM
class's `is_case_of` references. -/
def parse_eclass_step (acc : List (String × EclassClass) × List (String × List String))
    (e : EclassXmlClass) : List (String × EclassClass) × List (String × List String) :=
  match e.id with
  | none => acc
  | some class_id =>
      if class_id = "" then acc
      else
        let name := e.preferred_name.getD ("ECLASS Class " ++ class_id)
        if e.xsi_type.endsWith "CATEGORIZATION_CLASS_Type" then
          (setKey acc.1 class_id ⟨class_id, name, "CATEGORIZATION", e.definition, []⟩, acc.2)
        else if e.xsi_type.endsWith "ITEM_CLASS_CASE_OF_Type" then
          (setKey acc.1 class_id ⟨class_id, name, "ITEM", e.definition, e.case_refs⟩,
           e.case_refs.foldl (fun m ref => appendAtKey m ref class_id) acc.2)
        else acc

/-- Embeds `parse_eclass_xml` over the already-XML-parsed files. -/
def parse_eclass_xml (files : List (List EclassXmlClass)) :
    List (String × EclassClass) × List (String × List String) :=
  files.foldl (fun acc file => file.foldl parse_eclass_step acc) ([], [])

/-- The YAML artifact `eclass_build_mapping.main` writes. -/
structure EclassArtifact where
  eclass_version : String
  total_classes : Nat
  domain_mappings : List (String × EclassMapping)

/-- Embeds `main` of `eclass_build_mapping.py` as a function of the files
the glob finds: with no files it prints an error and returns **without
writing any artifact** (`none`); otherwise it parses, builds the mapping
and writes the artifact. -/
def eclass_main (xml_files : List (List EclassXmlClass)) : Option EclassArtifact :=
  if xml_files.isEmpty then none
  else
    let parsed := parse_eclass_xml xml_files
    some { eclass_version := "16.0"
           total_classes := parsed.1.length
           domain_mappings := build_domain_mapping parsed.1 parsed.2 }

/-- A named `xs:element` or `xs:complexType` of an XSD file, with its
annotation texts. -/
structure XsdNode where
  name : Option String
  doc_texts : List String

/-- An XSD file that parsed: its file name, elements and complex types. -/
structure XsdRaw where
  fileName : String
  elements : List XsdNode
  complexTypes : List XsdNode

/-- One extracted ISA-95 definition (`defs_by_name` value). -/
structure Isa95Def where
  name : String
  description : String
  group : String
  source : String
deriving DecidableEq, Repr

/-- `re.sub(r"\s+", " ", text)`: collapse each maximal whitespace run to a
single space (the `Bool` records whether the previous character was
whitespace). -/
def collapse_ws_go : Bool → List Char → List Char
  | _, [] => []
  | inWs, c :: cs =>
      if c.isWhitespace then
        if inWs then collapse_ws_go true cs
        else ' ' :: collapse_ws_go true cs
      else c :: collapse_ws_go false cs

/-- Python `s.strip()`. -/
def stripStr (s : String) : String :=
  ⟨((s.data.dropWhile Char.isWhitespace).reverse.dropWhile Char.isWhitespace).reverse⟩

/-- Embeds `_strip_ws` of `isa95_build_mapping.py`. -/
def strip_ws (text : Option String) : String :=
  match text with
  | none => ""
  | some s => if s = "" then "" else stripStr ⟨collapse_ws_go false s.data⟩

/-- Embeds `parse_xsd_file`: `none` is a file that fails to parse (the
source logs a warning and returns `{}`); otherwise collect the named
elements then the named complex types (same-name entries overwrite). -/
def parse_xsd_file (f : Option XsdRaw) : List (String × Isa95Def) :=
  match f with
  | none => []
  | some raw =>
      let step := fun (group : String) (defs : List (String × Isa95Def)) (node : XsdNode) =>
        match node.name with
        | none => defs
        | some nm =>
            if nm = "" then defs
            else setKey defs nm
              ⟨nm, strip_ws (some (joinSep " " node.doc_texts)), group, raw.fileName⟩
      let withElems := raw.elements.foldl (step "Element") []
      raw.complexTypes.foldl (step "ComplexType") withElems

/-- Embeds `load_all_xsd_definitions`: empty when the schema directory does
not exist, else merge the per-file definitions in file order (last wins). -/
def load_all_xsd_definitions (dirExists : Bool) (files : List (Option XsdRaw)) :
    List (String × Isa95Def) :=
  if dirExists then
    files.foldl (fun all_defs f => dictUpdate all_defs (parse_xsd_file f)) []
  else []

/-- One value of the `domain_mappings` dict of `isa95_build_mapping.py`. -/
structure Isa95Mapping where
  domain_class : String
  isa95_type_ids : List String
  isa95_types : List (String × Isa95Def)
deriving DecidableEq, Repr

/-- The mapping entry `build_domain_mapping` of `isa95_build_mapping.py`
stores for one domain: the definitions classified into the domain, with
their names also listed sorted. -/
def isa95_domain_entry (defs_by_name : List (String × Isa95Def)) (domain : String) :
    Isa95Mapping :=
  let assigned := defs_by_name.filter fun pr => classify_domain pr.2.description == some domain
  { domain_class := domain
    isa95_type_ids := sortStrings (assigned.map Prod.fst)
    isa95_types := assigned }

/-- Embeds `build_domain_mapping` of `isa95_build_mapping.py`. -/
def isa95_build_domain_mapping (defs_by_name : List (String × Isa95Def)) :
    List (String × Isa95Mapping) :=
  ISA95_DOMAIN_KEYWORDS.map fun p => (p.1, isa95_domain_entry defs_by_name p.1)

/-- The YAML artifact `isa95_build_mapping.main` writes. -/
structure Isa95Artifact where
  isa95_source : String
  total_definitions : Nat
  domain_mappings : List (String × Isa95Mapping)

/-- Embeds `main` of `isa95_build_mapping.py` as a function of the schema
directory state: it always writes an artifact, even for an empty corpus. -/
def isa95_main (dirExists : Bool) (files : List (Option XsdRaw)) : Isa95Artifact :=
  let defs_by_name := load_all_xsd_definitions dirExists files
  { isa95_source := "xsd"
    total_definitions := defs_by_name.length
    domain_mappings := isa95_build_domain_mapping defs_by_name }

/-- Registry used by the C4/C5 witnesses: one eagerly registered schema
with one alias, over an empty config directory. -/
def c4_registry : SchemaRegistry :=
  { fs := fun _ => FileRead.absent
    mappers := [("ISA-95", MapperFactory.cls "ISA95Mapper")]
    aliases := [("ISA95", "ISA-95")]
    instances := []
    configs := []
    nextId := 0 }

/-- The instance the first `get_mapper` call on `c4_registry` constructs. -/
def c4_inst : MapperInst := ⟨0, "ISA95Mapper", []⟩

/-- The registry state after that first call (config cached empty, instance
cached, allocation counter advanced). -/
def c4_registry1 : SchemaRegistry :=
  { fs := fun _ => FileRead.absent
    mappers := [("ISA-95", MapperFactory.cls "ISA95Mapper")]
    aliases := [("ISA95", "ISA-95")]
    instances := [("ISA-95", c4_inst)]
    configs := [("ISA-95", [])]
    nextId := 1 }

/-- Registry over a directory whose `isa95_mapping.yml` is unparsable (for
the C5 witness). -/
def c5_registry_bad : SchemaRegistry :=
  { c4_registry with fs := fun _ => FileRead.parseError }

/-! ## Association-list lemmas -/

theorem getKey?_setKey_self {β : Type} (d : List (String × β)) (k : String) (v : β) :
    getKey? (setKey d k v) k = some v := by
  induction d with
  | nil => simp [setKey, getKey?]
  | cons hd tl ih =>
      obtain ⟨k1, v1⟩ := hd
      by_cases h : k1 = k
      · simp [setKey, h, getKey?]
      · simp [setKey, h, getKey?, ih]

theorem getKey?_setKey_ne {β : Type} (d : List (String × β)) (k k2 : String) (v : β)
    (h : k ≠ k2) : getKey? (setKey d k v) k2 = getKey? d k2 := by
  induction d with
  | nil => simp [setKey, getKey?, h]
  | cons hd tl ih =>
      obtain ⟨k1, v1⟩ := hd
      by_cases h1 : k1 = k
      · subst h1
        simp [setKey, getKey?, h]
      · simp [setKey, h1, getKey?, ih]

/-! ## C1 -/

/-- **C1.** For a part with no existing binding for `onto`, binding twice
with class-id lists `l1` and `l2` (in either order, with arbitrary
`case_item_ids`/`metadata` arguments) yields a binding whose `class_ids` is
duplicate-free and, viewed as a set, is the union of `l1` and `l2`; the set
is the same in either call order (the merge is commutative, never an
overwrite). -/
theorem c1_bind_ontology_merge_union (p : PartClass) (onto : String) (l1 l2 : List String)
    (ci1 ci2 : Option (List String)) (md1 md2 : Option Metadata)
    (h : p.get_binding onto = none) :
    ∃ b1 b2 : OntologyBinding,
      ((p.bind_ontology onto (some l1) ci1 md1).bind_ontology onto (some l2) ci2 md2).get_binding
          onto = some b1 ∧
      ((p.bind_ontology onto (some l2) ci2 md2).bind_ontology onto (some l1) ci1 md1).get_binding
          onto = some b2 ∧
      b1.class_ids.Nodup ∧ b2.class_ids.Nodup ∧
      (∀ x, x ∈ b1.class_ids ↔ x ∈ l1 ∨ x ∈ l2) ∧
      (∀ x, x ∈ b2.class_ids ↔ x ∈ b1.class_ids) := by
  rw [PartClass.get_binding] at h
  refine ⟨mergeBinding ⟨onto, l1, ci1.getD [], md1.getD []⟩ (some l2) ci2 md2,
          mergeBinding ⟨onto, l2, ci2.getD [], md2.getD []⟩ (some l1) ci1 md1,
          ?_, ?_, ?_, ?_, ?_, ?_⟩
  · simp only [PartClass.bind_ontology, PartClass.get_binding, h, Option.getD_some,
      getKey?_setKey_self]
  · simp only [PartClass.bind_ontology, PartClass.get_binding, h, Option.getD_some,
      getKey?_setKey_self]
  · exact List.nodup_dedup _
  · exact List.nodup_dedup _
  · intro x
    simp [mergeBinding]
  · intro x
    simp only [mergeBinding, List.mem_dedup, List.mem_append]
    exact or_comm

/-- Witness for C1 at a concrete part and concrete overlapping lists. -/
theorem c1_witness :
    ∃ b1 b2 : OntologyBinding,
      (((PartClass.mk "p1" "Main Gearbox" "Transmission" [] []).bind_ontology "ECLASS"
            (some ["A", "B"]) none none).bind_ontology "ECLASS"
          (some ["B", "C"]) none none).get_binding "ECLASS" = some b1 ∧
      (((PartClass.mk "p1" "Main Gearbox" "Transmission" [] []).bind_ontology "ECLASS"
            (some ["B", "C"]) none none).bind_ontology "ECLASS"
          (some ["A", "B"]) none none).get_binding "ECLASS" = some b2 ∧
      b1.class_ids.Nodup ∧ b2.class_ids.Nodup ∧
      (∀ x, x ∈ b1.class_ids ↔ x ∈ ["A", "B"] ∨ x ∈ ["B", "C"]) ∧
      (∀ x, x ∈ b2.class_ids ↔ x ∈ b1.class_ids) :=
  c1_bind_ontology_merge_union (PartClass.mk "p1" "Main Gearbox" "Transmission" [] [])
    "ECLASS" ["A", "B"] ["B", "C"] none none none none (by decide)

/-! ## Substring and scoring lemmas -/

theorem pyIn_iff (sub text : String) : pyIn sub text = true ↔ sub.data <:+: text.data := by
  rw [pyIn, List.any_eq_true]
  constructor
  · rintro ⟨t, ht, hp⟩
    rw [List.mem_tails] at ht
    rw [ List.isPrefixOf_iff_prefix] at hp
    exact hp.isInfix.trans ht.isInfix
  · intro hinf
    rcases List.infix_iff_prefix_suffix.mp hinf with ⟨t, hpre, hsuf⟩
    exact ⟨t, (List.mem_tails _ _).mpr hsuf, List.isPrefixOf_iff_prefix.mpr hpre⟩

theorem pyIn_eq_decide (sub text : String) :
    pyIn sub text = decide (sub.data <:+: text.data) := by
  rw [Bool.eq_iff_iff, pyIn_iff, decide_eq_true_iff]

theorem getKey?_mem_snd {β : Type} :
    ∀ (T : List (String × β)) (k : String) (v : β),
      getKey? T k = some v → v ∈ T.map Prod.snd := by
  intro T
  induction T with
  | nil => intro k v h; simp [getKey?] at h
  | cons p T ih =>
      intro k v h
      obtain ⟨k1, v1⟩ := p
      by_cases hk : k1 = k
      · simp only [getKey?, if_pos hk, Option.some.injEq] at h
        subst h
        simp
      · simp only [getKey?, if_neg hk] at h
        have hmem := ih k v h
        rw [List.map_cons]
        exact List.mem_cons.mpr (Or.inr hmem)

theorem maxByScore_cons (x y : String × Nat) (ys : List (String × Nat)) :
    maxByScore x (y :: ys) = maxByScore (if y.2 > x.2 then y else x) ys := rfl

theorem le_maxByScore (x : String × Nat) (xs : List (String × Nat)) :
    ∀ y ∈ x :: xs, y.2 ≤ (maxByScore x xs).2 := by
  induction xs generalizing x with
  | nil =>
      intro y hy
      rw [List.mem_singleton] at hy
      subst hy
      exact Nat.le_refl _
  | cons z zs ih =>
      intro y hy
      rw [maxByScore_cons]
      by_cases hz : z.2 > x.2
      · rw [if_pos hz]
        rcases List.mem_cons.mp hy with hyx | hy2
        · subst hyx
          exact Nat.le_trans (Nat.le_of_lt hz) (ih z z (List.mem_cons_self _ _))
        · exact ih z y hy2
      · rw [if_neg hz]
        rcases List.mem_cons.mp hy with hyx | hy2
        · rw [hyx]
          exact ih x x (List.mem_cons_self _ _)
        · rcases List.mem_cons.mp hy2 with hyz | hy3
          · rw [hyz]
            exact Nat.le_trans (Nat.not_lt.mp hz) (ih x x (List.mem_cons_self _ _))
          · exact ih x y (List.mem_cons.mpr (Or.inr hy3))

theorem maxByScore_split (x : String × Nat) (xs : List (String × Nat)) :
    ∃ l1 l2, x :: xs = l1 ++ maxByScore x xs :: l2 ∧
      (∀ y ∈ l1, y.2 < (maxByScore x xs).2) ∧
      (∀ y ∈ l2, y.2 ≤ (maxByScore x xs).2) := by
  induction xs generalizing x with
  | nil => exact ⟨[], [], rfl, by simp, by simp⟩
  | cons z zs ih =>
      rw [maxByScore_cons]
      by_cases hz : z.2 > x.2
      · rw [if_pos hz]
        obtain ⟨l1, l2, heq, h1, h2⟩ := ih z
        refine ⟨x :: l1, l2, ?_, ?_, h2⟩
        · rw [List.cons_append, ← heq]
        · intro y hy
          rcases List.mem_cons.mp hy with hyx | hy1
          · subst hyx
            exact Nat.lt_of_lt_of_le hz (le_maxByScore z zs z (List.mem_cons_self _ _))
          · exact h1 y hy1
      · rw [if_neg hz]
        obtain ⟨l1, l2, heq, h1, h2⟩ := ih x
        cases l1 with
        | nil =>
            rw [List.nil_append] at heq
            injection heq with hxm hzl
            refine ⟨[], z :: zs, ?_, by simp, ?_⟩
            · rw [List.nil_append, ← hxm]
            · intro y hy
              rcases List.mem_cons.mp hy with hyz | hy2
              · subst hyz
                rw [← hxm]
                exact Nat.not_lt.mp hz
              · rw [hzl] at hy2
                exact h2 y hy2
        | cons a l1t =>
            rw [List.cons_append] at heq
            injection heq with hxa hzs
            have hxlt : x.2 < (maxByScore x zs).2 := by
              have := h1 a (List.mem_cons_self _ _)
              rwa [← hxa] at this
            refine ⟨x :: z :: l1t, l2, ?_, ?_, h2⟩
            · rw [List.cons_append, List.cons_append, ← hzs]
            · intro y hy
              rcases List.mem_cons.mp hy with hyx | hy1
              · subst hyx
                exact hxlt
              · rcases List.mem_cons.mp hy1 with hyz | hy2
                · subst hyz
                  exact Nat.lt_of_le_of_lt (Nat.not_lt.mp hz) hxlt
                · exact h1 y (List.mem_cons.mpr (Or.inr hy2))

theorem filter_split {α : Type} (q : α → Bool) :
    ∀ (L A B : List α) (m : α), L.filter q = A ++ m :: B →
      ∃ LA LB, L = LA ++ m :: LB ∧ LA.filter q = A ∧ LB.filter q = B := by
  intro L
  induction L with
  | nil =>
      intro A B m h
      rw [List.filter_nil] at h
      exact absurd h.symm (List.append_ne_nil_of_right_ne_nil _ (List.cons_ne_nil _ _))
  | cons a L ih =>
      intro A B m h
      by_cases hqa : q a
      · rw [List.filter_cons_of_pos hqa] at h
        cases A with
        | nil =>
            rw [List.nil_append] at h
            injection h with h1 h2
            exact ⟨[], L, by rw [← h1, List.nil_append], by rfl, h2⟩
        | cons a2 A2 =>
            rw [List.cons_append] at h
            injection h with h1 h2
            obtain ⟨LA, LB, hL, hA, hB⟩ := ih A2 B m h2
            refine ⟨a :: LA, LB, by rw [List.cons_append, hL], ?_, hB⟩
            rw [List.filter_cons_of_pos hqa, hA, h1]
      · rw [List.filter_cons_of_neg hqa] at h
        obtain ⟨LA, LB, hL, hA, hB⟩ := ih A B m h
        refine ⟨a :: LA, LB, by rw [List.cons_append, hL], ?_, hB⟩
        rw [List.filter_cons_of_neg hqa, hA]

theorem map_split {α β : Type} (g : α → β) :
    ∀ (L : List α) (A B : List β) (m : β), L.map g = A ++ m :: B →
      ∃ LA p LB, L = LA ++ p :: LB ∧ g p = m ∧ LA.map g = A ∧ LB.map g = B := by
  intro L
  induction L with
  | nil =>
      intro A B m h
      rw [List.map_nil] at h
      exact absurd h.symm (List.append_ne_nil_of_right_ne_nil _ (List.cons_ne_nil _ _))
  | cons a L ih =>
      intro A B m h
      rw [List.map_cons] at h
      cases A with
      | nil =>
          rw [List.nil_append] at h
          injection h with h1 h2
          exact ⟨[], a, L, rfl, h1, rfl, h2⟩
      | cons b A2 =>
          rw [List.cons_append] at h
          injection h with h1 h2
          obtain ⟨LA, p, LB, hL, hg, hA, hB⟩ := ih A2 B m h2
          exact ⟨a :: LA, p, LB, by rw [List.cons_append, hL], hg,
            by rw [List.map_cons, hA, h1], hB⟩

theorem classify_generic_none_of_all_zero (T : List (String × List String)) (ms : Nat)
    (t : String) (h : ∀ d ∈ T.map Prod.fst, domain_score T t d = 0) :
    classify_domain_generic T ms t = none := by
  have hfil : ((T.map fun p => (p.1, domain_score T t p.1)).filter fun p => p.2 > 0) = [] := by
    rw [List.filter_eq_nil_iff]
    intro y hy
    rw [List.mem_map] at hy
    obtain ⟨p, hp, rfl⟩ := hy
    have h0 := h p.1 (List.mem_map.mpr ⟨p, hp, rfl⟩)
    simp [h0]
  simp only [classify_domain_generic, hfil]

theorem classify_generic_some_spec (T : List (String × List String)) (ms : Nat) (t d : String)
    (hms : 1 ≤ ms) (h : classify_domain_generic T ms t = some d) :
    ms ≤ domain_score T t d ∧
      ∃ pre post, T.map Prod.fst = pre ++ d :: post ∧
        (∀ e ∈ pre, domain_score T t e < domain_score T t d) ∧
        (∀ e ∈ post, domain_score T t e ≤ domain_score T t d) := by
  simp only [classify_domain_generic] at h
  cases hp : (T.map fun p => (p.1, domain_score T t p.1)).filter fun p => p.2 > 0 with
  | nil => rw [hp] at h; simp at h
  | cons x xs =>
      rw [hp] at h
      simp only at h
      by_cases hlt : (maxByScore x xs).2 < ms
      · rw [if_pos hlt] at h
        simp at h
      · rw [if_neg hlt] at h
        have hd : (maxByScore x xs).1 = d := by
          simpa using h
        have hmge : ms ≤ (maxByScore x xs).2 := Nat.not_lt.mp hlt
        -- every element of the scored list carries its own domain's score
        have hscval : ∀ y ∈ (T.map fun p => (p.1, domain_score T t p.1)),
            y.2 = domain_score T t y.1 := by
          intro y hy
          rw [List.mem_map] at hy
          obtain ⟨p, _, rfl⟩ := hy
          rfl
        obtain ⟨l1, l2, hsplit, h1, h2⟩ := maxByScore_split x xs
        rw [← hp] at hsplit
        obtain ⟨SA, SB, hS, hSA, hSB⟩ := filter_split _ _ _ _ _ hsplit
        obtain ⟨TA, p0, TB, hT, hg, hTA, hTB⟩ := map_split _ _ _ _ _ hS
        have hp01 : p0.1 = d := by
          rw [← hd, ← hg]
        have hm2 : (maxByScore x xs).2 = domain_score T t d := by
          rw [← hg, hp01]
        constructor
        · rw [← hm2]; exact hmge
        · refine ⟨TA.map Prod.fst, TB.map Prod.fst, ?_, ?_, ?_⟩
          · rw [hT, List.map_append, List.map_cons, hp01]
          · intro e he
            rw [List.mem_map] at he
            obtain ⟨pe, hpe, rfl⟩ := he
            have hmemS : (pe.1, domain_score T t pe.1) ∈ SA := by
              rw [← hTA]
              exact List.mem_map.mpr ⟨pe, hpe, rfl⟩
            by_cases hpos : domain_score T t pe.1 > 0
            · have : (pe.1, domain_score T t pe.1) ∈ SA.filter fun p => p.2 > 0 :=
                List.mem_filter.mpr ⟨hmemS, by simpa using hpos⟩
              rw [hSA] at this
              have := h1 _ this
              rwa [hm2] at this
            · have h0 : domain_score T t pe.1 = 0 := Nat.eq_zero_of_not_pos hpos
              rw [h0, ← hm2]
              exact Nat.lt_of_lt_of_le (Nat.lt_of_lt_of_le Nat.zero_lt_one hms) hmge
          · intro e he
            rw [List.mem_map] at he
            obtain ⟨pe, hpe, rfl⟩ := he
            have hmemS : (pe.1, domain_score T t pe.1) ∈ SB := by
              rw [← hTB]
              exact List.mem_map.mpr ⟨pe, hpe, rfl⟩
            by_cases hpos : domain_score T t pe.1 > 0
            · have : (pe.1, domain_score T t pe.1) ∈ SB.filter fun p => p.2 > 0 :=
                List.mem_filter.mpr ⟨hmemS, by simpa using hpos⟩
              rw [hSB] at this
              have := h2 _ this
              rwa [hm2] at this
            · have h0 : domain_score T t pe.1 = 0 := Nat.eq_zero_of_not_pos hpos
              rw [h0]
              exact Nat.zero_le _

theorem classify_generic_some_of_ge (T : List (String × List String)) (ms : Nat) (t d : String)
    (hms : 1 ≤ ms) (hd : d ∈ T.map Prod.fst) (hs : ms ≤ domain_score T t d) :
    ∃ e, classify_domain_generic T ms t = some e := by
  obtain ⟨p, hp, hp1⟩ := List.mem_map.mp hd
  have hmem : (d, domain_score T t d) ∈
      ((T.map fun p => (p.1, domain_score T t p.1)).filter fun p => p.2 > 0) := by
    refine List.mem_filter.mpr ⟨List.mem_map.mpr ⟨p, hp, by rw [hp1]⟩, ?_⟩
    simpa using Nat.lt_of_lt_of_le (Nat.lt_of_lt_of_le Nat.zero_lt_one hms) hs
  cases hE : (T.map fun p => (p.1, domain_score T t p.1)).filter fun p => p.2 > 0 with
  | nil => rw [hE] at hmem; cases hmem
  | cons x xs =>
      rw [hE] at hmem
      have hub := le_maxByScore x xs _ hmem
      have : ¬ (maxByScore x xs).2 < ms :=
        Nat.not_lt.mpr (Nat.le_trans hs hub)
      refine ⟨(maxByScore x xs).1, ?_⟩
      simp only [classify_domain_generic, hE, if_neg this]

theorem domain_score_lower_congr (T : List (String × List String)) (t1 t2 d : String)
    (h : pyLower t1 = pyLower t2) : domain_score T t1 d = domain_score T t2 d := by
  simp only [domain_score, h]

theorem domain_score_mono_append (T : List (String × List String)) (t s d : String) :
    domain_score T t d ≤ domain_score T (t ++ s) d := by
  simp only [domain_score]
  apply List.countP_mono_left
  intro kw _ hp
  rw [pyIn_iff] at hp ⊢
  have hdata : (pyLower (t ++ s)).data = (pyLower t).data ++ (pyLower s).data := by
    show ((t ++ s).data.map Char.toLower) = _
    have : (t ++ s).data = t.data ++ s.data := rfl
    rw [this, List.map_append]
    rfl
  rw [hdata]
  obtain ⟨u, v, huv⟩ := hp
  exact ⟨u, v ++ (pyLower s).data, by rw [← huv]; simp [List.append_assoc]⟩

theorem domain_score_eq_distinct_count (T : List (String × List String))
    (hT : ∀ l ∈ T.map Prod.snd, l.Nodup) (t d : String) :
    domain_score T t d = ((getKey? T d).getD []).dedup.countP
      fun kw => decide ((pyLower kw).data <:+: (pyLower t).data) := by
  simp only [domain_score]
  cases hk : getKey? T d with
  | none => simp
  | some l =>
      have hnd : l.Nodup := hT l (getKey?_mem_snd T d l hk)
      rw [Option.getD_some, List.dedup_eq_self.mpr hnd]
      apply List.countP_congr
      intro kw _
      rw [pyIn_eq_decide]

/-! ## C6 -/

/-- **C6.** For each classifier (ECLASS with `MIN_SCORE = 2`, ISA-95 with
`MIN_SCORE = 1`): a definition whose score is zero for every domain is
unclassified (`None`); a classified definition has score at least
`MIN_SCORE` for the returned domain, every domain strictly earlier in the
keyword dictionary's iteration order scores strictly less, and every later
domain scores no more (so the returned domain attains the maximum and, on
ties, is the first in dictionary order); conversely, whenever some domain
reaches `MIN_SCORE`, the classifier does return a domain. -/
theorem c6_classification_rule :
    (∀ t, (∀ d ∈ ECLASS_DOMAIN_KEYWORDS.map Prod.fst, eclass_domain_score t d = 0) →
        classify_domain_for_class t = none) ∧
    (∀ t d, classify_domain_for_class t = some d →
        MIN_SCORE_ECLASS ≤ eclass_domain_score t d ∧
        ∃ pre post, ECLASS_DOMAIN_KEYWORDS.map Prod.fst = pre ++ d :: post ∧
          (∀ e ∈ pre, eclass_domain_score t e < eclass_domain_score t d) ∧
          (∀ e ∈ post, eclass_domain_score t e ≤ eclass_domain_score t d)) ∧
    (∀ t d, d ∈ ECLASS_DOMAIN_KEYWORDS.map Prod.fst →
        MIN_SCORE_ECLASS ≤ eclass_domain_score t d →
        ∃ e, classify_domain_for_class t = some e) ∧
    (∀ t, (∀ d ∈ ISA95_DOMAIN_KEYWORDS.map Prod.fst, isa95_domain_score t d = 0) →
        classify_domain t = none) ∧
    (∀ t d, classify_domain t = some d →
        MIN_SCORE_ISA95 ≤ isa95_domain_score t d ∧
        ∃ pre post, ISA95_DOMAIN_KEYWORDS.map Prod.fst = pre ++ d :: post ∧
          (∀ e ∈ pre, isa95_domain_score t e < isa95_domain_score t d) ∧
          (∀ e ∈ post, isa95_domain_score t e ≤ isa95_domain_score t d)) ∧
    (∀ t d, d ∈ ISA95_DOMAIN_KEYWORDS.map Prod.fst →
        MIN_SCORE_ISA95 ≤ isa95_domain_score t d →
        ∃ e, classify_domain t = some e) := by
  refine ⟨?_, ?_, ?_, ?_, ?_, ?_⟩
  · intro t h
    exact classify_generic_none_of_all_zero _ _ t h
  · intro t d h
    exact classify_generic_some_spec _ _ t d (by decide) h
  · intro t d hd hs
    exact classify_generic_some_of_ge _ _ t d (by decide) hd hs
  · intro t h
    exact classify_generic_none_of_all_zero _ _ t h
  · intro t d h
    exact classify_generic_some_spec _ _ t d (by decide) h
  · intro t d hd hs
    exact classify_generic_some_of_ge _ _ t d (by decide) hd hs

/-- Witness for C6 at concrete definition texts (an all-zero-scoring text,
and texts classified as `Sensor` resp. `Fluidics`). -/
theorem c6_witness :
    classify_domain_for_class "" = none ∧
    MIN_SCORE_ECLASS ≤ eclass_domain_score "pressure sensor for flow measurement" "Sensor" ∧
    (∃ e, classify_domain_for_class "pressure sensor for flow measurement" = some e) ∧
    classify_domain "" = none ∧
    MIN_SCORE_ISA95 ≤ isa95_domain_score "centrifugal pump" "Fluidics" ∧
    (∃ e, classify_domain "centrifugal pump" = some e) :=
  ⟨c6_classification_rule.1 "" (by decide),
   (c6_classification_rule.2.1 "pressure sensor for flow measurement" "Sensor" (by decide)).1,
   c6_classification_rule.2.2.1 "pressure sensor for flow measurement" "Sensor" (by decide)
     (by decide),
   c6_classification_rule.2.2.2.1 "" (by decide),
   (c6_classification_rule.2.2.2.2.1 "centrifugal pump" "Fluidics" (by decide)).1,
   c6_classification_rule.2.2.2.2.2 "centrifugal pump" "Fluidics" (by decide) (by decide)⟩

/-! ## C7 -/

/-- **C7.** For both keyword tables, `domain_score text domain` equals the
number of distinct phrases of the domain's keyword list that occur as a
case-insensitive substring of the text (each phrase counted at most once);
scoring is case-insensitive (texts with the same lowercasing score
identically) and appending a domain keyword phrase to a definition never
decreases that domain's score. -/
theorem c7_score_substring_spec :
    (∀ t d, eclass_domain_score t d =
        ((getKey? ECLASS_DOMAIN_KEYWORDS d).getD []).dedup.countP
          fun kw => decide ((pyLower kw).data <:+: (pyLower t).data)) ∧
    (∀ t d, isa95_domain_score t d =
        ((getKey? ISA95_DOMAIN_KEYWORDS d).getD []).dedup.countP
          fun kw => decide ((pyLower kw).data <:+: (pyLower t).data)) ∧
    (∀ t1 t2 d, pyLower t1 = pyLower t2 →
        eclass_domain_score t1 d = eclass_domain_score t2 d) ∧
    (∀ t1 t2 d, pyLower t1 = pyLower t2 →
        isa95_domain_score t1 d = isa95_domain_score t2 d) ∧
    (∀ t d kw, kw ∈ (getKey? ECLASS_DOMAIN_KEYWORDS d).getD [] →
        eclass_domain_score t d ≤ eclass_domain_score (t ++ kw) d) ∧
    (∀ t d kw, kw ∈ (getKey? ISA95_DOMAIN_KEYWORDS d).getD [] →
        isa95_domain_score t d ≤ isa95_domain_score (t ++ kw) d) := by
  refine ⟨?_, ?_, ?_, ?_, ?_, ?_⟩
  · intro t d
    exact domain_score_eq_distinct_count ECLASS_DOMAIN_KEYWORDS (by decide) t d
  · intro t d
    exact domain_score_eq_distinct_count ISA95_DOMAIN_KEYWORDS (by decide) t d
  · intro t1 t2 d h
    exact domain_score_lower_congr _ t1 t2 d h
  · intro t1 t2 d h
    exact domain_score_lower_congr _ t1 t2 d h
  · intro t d kw _
    exact domain_score_mono_append _ t kw d
  · intro t d kw _
    exact domain_score_mono_append _ t kw d

/-- Witness for C7: case-insensitivity and monotonicity at concrete texts
and keywords. -/
theorem c7_witness :
    eclass_domain_score "Battery" "EnergyStorage" = eclass_domain_score "battery" "EnergyStorage" ∧
    isa95_domain_score "PUMP" "Fluidics" = isa95_domain_score "pump" "Fluidics" ∧
    eclass_domain_score "a" "Sensor" ≤ eclass_domain_score ("a" ++ "sensor") "Sensor" ∧
    isa95_domain_score "a" "Fluidics" ≤ isa95_domain_score ("a" ++ "pump") "Fluidics" :=
  ⟨c7_score_substring_spec.2.2.1 "Battery" "battery" "EnergyStorage" (by decide),
   c7_score_substring_spec.2.2.2.1 "PUMP" "pump" "Fluidics" (by decide),
   c7_score_substring_spec.2.2.2.2.1 "a" "Sensor" "sensor" (by decide),
   c7_score_substring_spec.2.2.2.2.2 "a" "Fluidics" "pump" (by decide)⟩

/-! ## C8 -/

theorem getKey?_mem {β : Type} :
    ∀ (T : List (String × β)) (k : String) (v : β), getKey? T k = some v → (k, v) ∈ T := by
  intro T
  induction T with
  | nil => intro k v h; simp [getKey?] at h
  | cons p T ih =>
      intro k v h
      obtain ⟨k1, v1⟩ := p
      by_cases hk : k1 = k
      · simp only [getKey?, if_pos hk, Option.some.injEq] at h
        subst h
        rw [hk]
        exact List.mem_cons_self _ _
      · simp only [getKey?, if_neg hk] at h
        exact List.mem_cons.mpr (Or.inr (ih k v h))

theorem mem_getKey? {β : Type} :
    ∀ (T : List (String × β)) (k : String) (v : β),
      (T.map Prod.fst).Nodup → (k, v) ∈ T → getKey? T k = some v := by
  intro T
  induction T with
  | nil => intro k v _ h; cases h
  | cons p T ih =>
      intro k v hnd h
      obtain ⟨k1, v1⟩ := p
      rw [List.map_cons, List.nodup_cons] at hnd
      rcases List.mem_cons.mp h with heq | hmem
      · injection heq with h1 h2
        simp only [getKey?]
        rw [if_pos h1.symm, h2]
      · have hk : k1 ≠ k := by
          intro hkk
          apply hnd.1
          rw [hkk]
          exact List.mem_map.mpr ⟨(k, v), hmem, rfl⟩
        simp only [getKey?, if_neg hk]
        exact ih k v hnd.2 hmem

theorem getKey?_map_keyed {γ β : Type} (F : String → β) :
    ∀ (T : List (String × γ)) (k : String) (v : β),
      getKey? (T.map fun p => (p.1, F p.1)) k = some v → v = F k := by
  intro T
  induction T with
  | nil => intro k v h; simp [getKey?] at h
  | cons p T ih =>
      intro k v h
      rw [List.map_cons] at h
      by_cases hk : p.1 = k
      · simp only [getKey?, if_pos hk, Option.some.injEq] at h
        rw [← h, hk]
      · simp only [getKey?, if_neg hk] at h
        exact ih k v h

theorem mem_eclass_classes_for (classes_by_id : List (String × EclassClass))
    (hnd : (classes_by_id.map Prod.fst).Nodup) (d cid : String) (cls : EclassClass) :
    (cid, cls) ∈ eclass_classes_for classes_by_id d ↔
      ((cid, cls) ∈ classes_by_id ∧ cls.type = "CATEGORIZATION" ∧
        classify_domain_for_class cls.definition = some d) := by
  constructor
  · intro h
    rw [eclass_classes_for, List.mem_filterMap] at h
    obtain ⟨pr, hpr, hif⟩ := h
    obtain ⟨prid, prdm⟩ := pr
    dsimp only at hif
    by_cases hd2 : prdm = d
    · rw [if_pos hd2, Option.map_eq_some'] at hif
      obtain ⟨cls0, hget0, heq⟩ := hif
      injection heq with h1 h2
      rw [domain_for_class, List.mem_filterMap] at hpr
      obtain ⟨pc, hpc, hifc⟩ := hpr
      obtain ⟨pcid, pccls⟩ := pc
      dsimp only at hifc
      by_cases hct : pccls.type = "CATEGORIZATION"
      · rw [if_pos hct, Option.map_eq_some'] at hifc
        obtain ⟨dm, hdm, heq2⟩ := hifc
        injection heq2 with h3 h4
        have hget0c : getKey? classes_by_id cid = some cls := by
          rw [← h1, ← h2]
          exact hget0
        have hgetc : getKey? classes_by_id cid = some pccls := by
          rw [← h1, ← h3]
          exact mem_getKey? _ _ _ hnd hpc
        rw [hget0c] at hgetc
        injection hgetc with h5
        refine ⟨getKey?_mem _ _ _ hget0c, ?_, ?_⟩
        · rw [h5]; exact hct
        · rw [h5, hdm, h4, hd2]
      · rw [if_neg hct] at hifc
        simp at hifc
    · rw [if_neg hd2] at hif
      simp at hif
  · rintro ⟨hmem, htype, hcls⟩
    have hg := mem_getKey? _ _ _ hnd hmem
    rw [eclass_classes_for, List.mem_filterMap]
    refine ⟨(cid, d), ?_, ?_⟩
    · rw [domain_for_class, List.mem_filterMap]
      refine ⟨(cid, cls), hmem, ?_⟩
      dsimp only
      rw [if_pos htype, hcls]
      rfl
    · dsimp only
      rw [if_pos rfl, hg]
      rfl

/-- **C8.** For every (duplicate-free) parsed ECLASS corpus, each domain's
mapping entry contains only CATEGORIZATION classes classified into that
domain, and its `eclass_case_item_ids` is precisely the sorted,
duplicate-free union, over the categorization ids classified into the
domain, of the item ids declared case-of that id — a one-hop join. -/
theorem c8_eclass_table_one_hop (classes_by_id : List (String × EclassClass))
    (case_of_mapping : List (String × List String))
    (hnd : (classes_by_id.map Prod.fst).Nodup) (d : String) (entry : EclassMapping)
    (hget : getKey? (build_domain_mapping classes_by_id case_of_mapping) d = some entry) :
    (∀ pr ∈ entry.eclass_classes, pr.2.type = "CATEGORIZATION" ∧
      classify_domain_for_class pr.2.definition = some d ∧ (pr.1, pr.2) ∈ classes_by_id) ∧
    (∀ x, x ∈ entry.eclass_case_item_ids ↔
      ∃ cid cls, (cid, cls) ∈ classes_by_id ∧ cls.type = "CATEGORIZATION" ∧
        classify_domain_for_class cls.definition = some d ∧
        x ∈ (getKey? case_of_mapping cid).getD []) ∧
    entry.eclass_case_item_ids.Sorted (fun a b => a ≤ b) ∧
    entry.eclass_case_item_ids.Nodup := by
  have hentry : entry = domain_mapping_entry classes_by_id case_of_mapping d :=
    getKey?_map_keyed _ _ _ _ hget
  subst hentry
  simp only [domain_mapping_entry]
  have hperm := List.perm_insertionSort (fun a b : String => a ≤ b)
    (((eclass_classes_for classes_by_id d).map Prod.fst).flatMap
      (fun base => (getKey? case_of_mapping base).getD [])).dedup
  refine ⟨?_, ?_, ?_, ?_⟩
  · intro pr hpr
    have := (mem_eclass_classes_for classes_by_id hnd d pr.1 pr.2).mp hpr
    exact ⟨this.2.1, this.2.2, this.1⟩
  · intro x
    rw [sortStrings, hperm.mem_iff, List.mem_dedup, List.mem_flatMap]
    constructor
    · rintro ⟨base, hbase, hx⟩
      rw [List.mem_map] at hbase
      obtain ⟨pc, hpc, rfl⟩ := hbase
      have := (mem_eclass_classes_for classes_by_id hnd d pc.1 pc.2).mp hpc
      exact ⟨pc.1, pc.2, this.1, this.2.1, this.2.2, hx⟩
    · rintro ⟨cid, cls, hmem, htype, hcls, hx⟩
      refine ⟨cid, ?_, hx⟩
      rw [List.mem_map]
      exact ⟨(cid, cls),
        (mem_eclass_classes_for classes_by_id hnd d cid cls).mpr ⟨hmem, htype, hcls⟩, rfl⟩
  · exact List.sorted_insertionSort _ _
  · exact hperm.nodup_iff.mpr (List.nodup_dedup _)

/-- Witness for C8 on the sample two-class corpus: the `Sensor` entry is
exactly the one-hop join `["i1"]`. -/
theorem c8_witness :
    (∀ pr ∈ c8_entry.eclass_classes, pr.2.type = "CATEGORIZATION" ∧
      classify_domain_for_class pr.2.definition = some "Sensor" ∧ (pr.1, pr.2) ∈ c8_classes) ∧
    (∀ x, x ∈ c8_entry.eclass_case_item_ids ↔
      ∃ cid cls, (cid, cls) ∈ c8_classes ∧ cls.type = "CATEGORIZATION" ∧
        classify_domain_for_class cls.definition = some "Sensor" ∧
        x ∈ (getKey? c8_case_of cid).getD []) ∧
    c8_entry.eclass_case_item_ids.Sorted (fun a b => a ≤ b) ∧
    c8_entry.eclass_case_item_ids.Nodup :=
  c8_eclass_table_one_hop c8_classes c8_case_of (by decide) "Sensor" c8_entry (by decide)

/-! ## C2 and C3 -/

theorem bind_ok {α β : Type} (x : α) (f : α → Except Exn β) :
    (Except.ok x >>= f) = f x := rfl

theorem pure_bind_ok {α β : Type} (x : α) (f : α → Except Exn β) :
    ((pure x : Except Exn α) >>= f) = f x := rfl

theorem mem_joinSep_data (sep : String) :
    ∀ (E : List String) (e : String), e ∈ E → e.data <:+: (joinSep sep E).data := by
  intro E
  induction E with
  | nil => intro e he; cases he
  | cons x xs ih =>
      intro e he
      cases xs with
      | nil =>
          rw [List.mem_singleton] at he
          rw [he]
          exact List.infix_refl _
      | cons y ys =>
          rcases List.mem_cons.mp he with rfl | hmem
          · refine ⟨[], (sep ++ joinSep sep (y :: ys)).data, ?_⟩
            rw [List.nil_append]
            show e.data ++ (sep.data ++ (joinSep sep (y :: ys)).data) =
              (e.data ++ sep.data) ++ (joinSep sep (y :: ys)).data
            rw [List.append_assoc]
          · exact (ih e hmem).trans (List.suffix_append
              (x ++ sep).data (joinSep sep (y :: ys)).data).isInfix

/-- **C2.** When the schema-name/version/context getters and all six layer
mappers return normally, and `validate_mapping` reports valid on the
assembled document, `map_dpp` returns exactly the nine-key document
`{schema, schema_version, @context, identity, structure, lifecycle, risk,
sustainability, provenance}`, each layer entry being the result of the
corresponding `map_<layer>` call. -/
theorem c2_map_dpp_valid_document (m : SchemaMapper) (dpp : DigitalProductPassport)
    (name ver : String) (ctx ident struct life risk sust prov : PyVal) (errs : List String)
    (hname : m.get_schema_name = Except.ok name)
    (hver : m.get_schema_version = Except.ok ver)
    (hctx : m.get_context = Except.ok ctx)
    (hid : m.map_identity_layer dpp.identity = Except.ok ident)
    (hst : m.map_structure_layer dpp.structure_ = Except.ok struct)
    (hlf : m.map_lifecycle_layer dpp.lifecycle = Except.ok life)
    (hrk : m.map_risk_layer dpp.risk = Except.ok risk)
    (hsu : m.map_sustainability_layer dpp.sustainability = Except.ok sust)
    (hpv : m.map_provenance_layer dpp.provenance = Except.ok prov)
    (hval : m.validate_mapping
        [("schema", DocVal.str name), ("schema_version", DocVal.str ver),
         ("@context", DocVal.frag ctx), ("identity", DocVal.frag ident),
         ("structure", DocVal.frag struct), ("lifecycle", DocVal.frag life),
         ("risk", DocVal.frag risk), ("sustainability", DocVal.frag sust),
         ("provenance", DocVal.frag prov)] = Except.ok (true, errs)) :
    map_dpp m dpp = Except.ok
      [("schema", DocVal.str name), ("schema_version", DocVal.str ver),
       ("@context", DocVal.frag ctx), ("identity", DocVal.frag ident),
       ("structure", DocVal.frag struct), ("lifecycle", DocVal.frag life),
       ("risk", DocVal.frag risk), ("sustainability", DocVal.frag sust),
       ("provenance", DocVal.frag prov)] := by
  simp only [map_dpp, assembleDoc, hname, hver, hctx, hid, hst, hlf, hrk, hsu, hpv,
    bind_ok, pure_bind_ok, hval]
  rfl

/-- Witness for C2 at a concrete mapper and passport. -/
theorem c2_witness :
    map_dpp goodMapper sampleDpp = Except.ok
      [("schema", DocVal.str "GOOD"), ("schema_version", DocVal.str "1"),
       ("@context", DocVal.frag (PyVal.dict [])), ("identity", DocVal.frag (PyVal.dict [])),
       ("structure", DocVal.frag (PyVal.dict [])), ("lifecycle", DocVal.frag (PyVal.dict [])),
       ("risk", DocVal.frag (PyVal.dict [])),
       ("sustainability", DocVal.frag (PyVal.dict [])),
       ("provenance", DocVal.frag (PyVal.dict []))] :=
  c2_map_dpp_valid_document goodMapper sampleDpp "GOOD" "1" (PyVal.dict []) (PyVal.dict [])
    (PyVal.dict []) (PyVal.dict []) (PyVal.dict []) (PyVal.dict []) (PyVal.dict []) []
    rfl rfl rfl rfl rfl rfl rfl rfl rfl rfl

/-- **C3.** Failure semantics of `map_dpp`: if validation reports invalid
with error list `E`, `map_dpp` raises a `ValueError` whose message contains
every string of `E` as a substring; any exception raised during document
assembly (a layer-mapping call or a getter) propagates unchanged, as does
an exception raised by validation itself — no partial result is returned. -/
theorem c3_map_dpp_failure_semantics (m : SchemaMapper) (dpp : DigitalProductPassport) :
    (∀ doc E, assembleDoc m dpp = Except.ok doc →
        m.validate_mapping doc = Except.ok (false, E) →
        map_dpp m dpp =
          Except.error (Exn.valueError ("Validation failed: " ++ joinSep "; " E)) ∧
        ∀ e ∈ E, e.data <:+: ("Validation failed: " ++ joinSep "; " E).data) ∧
    (∀ ex, assembleDoc m dpp = Except.error ex → map_dpp m dpp = Except.error ex) ∧
    (∀ doc ex, assembleDoc m dpp = Except.ok doc →
        m.validate_mapping doc = Except.error ex → map_dpp m dpp = Except.error ex) := by
  refine ⟨?_, ?_, ?_⟩
  · intro doc E hdoc hval
    constructor
    · simp only [map_dpp, hdoc, bind_ok, hval]
      rfl
    · intro e he
      exact (mem_joinSep_data "; " E e he).trans
        (List.suffix_append ("Validation failed: ").data (joinSep "; " E).data).isInfix
  · intro ex hex
    simp only [map_dpp, hex]
    rfl
  · intro doc ex hdoc hval
    simp only [map_dpp, hdoc, bind_ok, hval]
    rfl

/-- Witness for C3: validation failure carries both error strings;
exceptions from a layer call and from validation propagate unchanged. -/
theorem c3_witness :
    (map_dpp badMapper sampleDpp =
        Except.error (Exn.valueError "Validation failed: e1; e2") ∧
      ∀ e ∈ ["e1", "e2"],
        e.data <:+: ("Validation failed: " ++ joinSep "; " ["e1", "e2"]).data) ∧
    map_dpp raiseMapper sampleDpp = Except.error (Exn.raised "boom") ∧
    map_dpp valRaiseMapper sampleDpp = Except.error (Exn.raised "vboom") :=
  ⟨(c3_map_dpp_failure_semantics badMapper sampleDpp).1 _ ["e1", "e2"] rfl rfl,
   (c3_map_dpp_failure_semantics raiseMapper sampleDpp).2.1 _ rfl,
   (c3_map_dpp_failure_semantics valRaiseMapper sampleDpp).2.2 _ _ rfl rfl⟩

/-! ## C10 -/

/-- **C10.** For the concrete `ISA95Mapper` (any config, any passport),
`map_dpp` returns normally: the assembled document's `schema` key equals
`get_schema_name()` (`"ISA-95"`), so its `validate_mapping` always reports
valid with no errors and the validation-failure branch is unreachable. -/
theorem c10_isa95_map_dpp_total (config : Isa95Config) (dpp : DigitalProductPassport) :
    ∃ doc, map_dpp (isa95_mapper config) dpp = Except.ok doc ∧
      getKey? doc "schema" = some (DocVal.str ISA95Mapper.get_schema_name) ∧
      ISA95Mapper.validate_mapping doc = (true, []) := by
  refine ⟨[("schema", DocVal.str "ISA-95"),
    ("schema_version", DocVal.str "V0600"),
    ("@context", DocVal.frag ISA95Mapper.get_context),
    ("identity", DocVal.frag (ISA95Mapper.map_identity_layer dpp.identity)),
    ("structure", DocVal.frag (ISA95Mapper.map_structure_layer config dpp.structure_)),
    ("lifecycle", DocVal.frag (ISA95Mapper.map_lifecycle_layer dpp.lifecycle)),
    ("risk", DocVal.frag (ISA95Mapper.map_risk_layer dpp.risk)),
    ("sustainability", DocVal.frag (ISA95Mapper.map_sustainability_layer dpp.sustainability)),
    ("provenance", DocVal.frag (ISA95Mapper.map_provenance_layer dpp.provenance))],
    ?_, ?_, ?_⟩
  · rfl
  · rfl
  · rfl

/-! ## C4 and C5 -/

theorem load_config_preserves (reg : SchemaRegistry) (canonical_name : String) :
    (reg.load_config canonical_name).2.fs = reg.fs ∧
    (reg.load_config canonical_name).2.mappers = reg.mappers ∧
    (reg.load_config canonical_name).2.aliases = reg.aliases ∧
    (reg.load_config canonical_name).2.instances = reg.instances ∧
    (reg.load_config canonical_name).2.nextId = reg.nextId := by
  cases h1 : getKey? reg.configs canonical_name with
  | some cfg => simp [SchemaRegistry.load_config, h1]
  | none =>
      cases h2 : reg.fs (configFileName canonical_name) with
      | absent => simp [SchemaRegistry.load_config, h1, h2]
      | parseError => simp [SchemaRegistry.load_config, h1, h2]
      | parsed v => simp [SchemaRegistry.load_config, h1, h2]

/-- **C4.** `get_mapper` caching and alias semantics: (1) a successful call
with `force_reload` off leaves the registry in a state where the same call
returns the identical cached instance and the identical state; (2) a call
with an alias is the same call as with the alias's canonical name — alias
resolution happens before the registration check, the instance cache and
the mapper table are only consulted under the canonical name; (3) an
unregistered name (after alias resolution) fails with a `KeyError` carrying
the list of all registered canonical names. -/
theorem c4_get_mapper_cache_alias_notfound (reg : SchemaRegistry) :
    (∀ n m reg1, reg.get_mapper n false = Except.ok (m, reg1) →
        reg1.get_mapper n false = Except.ok (m, reg1)) ∧
    (∀ a c f, getKey? reg.aliases a = some c → getKey? reg.aliases c = none →
        (getKey? reg.mappers c).isSome →
        reg.get_mapper a f = reg.get_mapper c f) ∧
    (∀ n f, getKey? reg.mappers (reg.resolve_canonical_name n) = none →
        reg.get_mapper n f = Except.error (RegErr.keyError n (reg.mappers.map Prod.fst))) := by
  refine ⟨?_, ?_, ?_⟩
  · intro n m reg1 h
    simp only [SchemaRegistry.get_mapper] at h
    cases hm : getKey? reg.mappers (reg.resolve_canonical_name n) with
    | none =>
        rw [hm] at h
        simp at h
    | some factory =>
        rw [hm] at h
        cases hi : getKey? reg.instances (reg.resolve_canonical_name n) with
        | some inst =>
            rw [hi] at h
            simp only [Except.ok.injEq, Prod.mk.injEq] at h
            obtain ⟨hm1, hr1⟩ := h
            subst hm1
            subst hr1
            simp only [SchemaRegistry.get_mapper, hm, hi]
        | none =>
            rw [hi] at h
            cases factory with
            | cls c =>
                simp only [Except.ok.injEq, Prod.mk.injEq] at h
                obtain ⟨hm1, hr1⟩ := h
                have hpres := load_config_preserves reg (reg.resolve_canonical_name n)
                have hres1 : reg1.resolve_canonical_name n = reg.resolve_canonical_name n := by
                  rw [SchemaRegistry.resolve_canonical_name,
                    SchemaRegistry.resolve_canonical_name, ← hr1]
                  simp [hpres.2.2.1]
                have hmap1 : getKey? reg1.mappers (reg.resolve_canonical_name n) =
                    some (MapperFactory.cls c) := by
                  rw [← hr1]
                  simp only
                  rw [hpres.2.1, hm]
                have hins1 : getKey? reg1.instances (reg.resolve_canonical_name n) = some m := by
                  rw [← hr1, ← hm1]
                  simp only
                  exact getKey?_setKey_self _ _ _
                simp only [SchemaRegistry.get_mapper, hres1, hmap1, hins1]
            | lazyLoader r =>
                cases r with
                | ok c =>
                    simp only [Except.ok.injEq, Prod.mk.injEq] at h
                    obtain ⟨hm1, hr1⟩ := h
                    have hpres := load_config_preserves reg (reg.resolve_canonical_name n)
                    have hres1 : reg1.resolve_canonical_name n =
                        reg.resolve_canonical_name n := by
                      rw [SchemaRegistry.resolve_canonical_name,
                        SchemaRegistry.resolve_canonical_name, ← hr1]
                      simp [hpres.2.2.1]
                    have hmap1 : getKey? reg1.mappers (reg.resolve_canonical_name n) =
                        some (MapperFactory.lazyLoader (Except.ok c)) := by
                      rw [← hr1]
                      simp only
                      rw [hpres.2.1, hm]
                    have hins1 : getKey? reg1.instances (reg.resolve_canonical_name n) =
                        some m := by
                      rw [← hr1, ← hm1]
                      simp only
                      exact getKey?_setKey_self _ _ _
                    simp only [SchemaRegistry.get_mapper, hres1, hmap1, hins1]
                | error e =>
                    simp at h
  · intro a c f ha hc hreg
    rw [SchemaRegistry.get_mapper, SchemaRegistry.get_mapper]
    simp only [SchemaRegistry.resolve_canonical_name, ha, hc, Option.getD_some,
      Option.getD_none]
    cases hmc : getKey? reg.mappers c with
    | none => rw [hmc] at hreg; simp at hreg
    | some factory => rfl
  · intro n f h
    rw [SchemaRegistry.get_mapper]
    simp only [h]

/-- Witness for C4 on a concrete one-schema registry with one alias. -/
theorem c4_witness :
    c4_registry1.get_mapper "ISA-95" false = Except.ok (c4_inst, c4_registry1) ∧
    c4_registry.get_mapper "ISA95" false = c4_registry.get_mapper "ISA-95" false ∧
    c4_registry.get_mapper "ECLASS" false =
      Except.error (RegErr.keyError "ECLASS" ["ISA-95"]) :=
  ⟨(c4_get_mapper_cache_alias_notfound c4_registry).1 "ISA-95" c4_inst c4_registry1 rfl,
   (c4_get_mapper_cache_alias_notfound c4_registry).2.1 "ISA95" "ISA-95" false rfl rfl rfl,
   (c4_get_mapper_cache_alias_notfound c4_registry).2.2 "ECLASS" false rfl⟩

/-- **C5.** `_load_config` is total on a first load: a missing config file
(under the derived name: canonical name lowercased, dashes removed,
suffixed `_mapping.yml`) yields the empty configuration, an unparsable file
also yields the empty configuration, and a parsed file yields its contents
(`{}` for YAML `null`) — one case per possible filesystem answer, so config
loading never raises. -/
theorem c5_load_config_never_raises (reg : SchemaRegistry) (canonical_name : String)
    (hmiss : getKey? reg.configs canonical_name = none) :
    (reg.fs (configFileName canonical_name) = FileRead.absent →
      (reg.load_config canonical_name).1 = []) ∧
    (reg.fs (configFileName canonical_name) = FileRead.parseError →
      (reg.load_config canonical_name).1 = []) ∧
    (∀ v, reg.fs (configFileName canonical_name) = FileRead.parsed v →
      (reg.load_config canonical_name).1 = v.getD []) := by
  refine ⟨?_, ?_, ?_⟩
  · intro hfs
    simp [SchemaRegistry.load_config, hmiss, hfs]
  · intro hfs
    simp [SchemaRegistry.load_config, hmiss, hfs]
  · intro v hfs
    simp [SchemaRegistry.load_config, hmiss, hfs]

/-- Witness for C5: missing file and malformed file both load as the empty
configuration for canonical name `ISA-95` (file `isa95_mapping.yml`). -/
theorem c5_witness :
    (c4_registry.load_config "ISA-95").1 = [] ∧
    (c5_registry_bad.load_config "ISA-95").1 = [] :=
  ⟨(c5_load_config_never_raises c4_registry "ISA-95" rfl).1 rfl,
   (c5_load_config_never_raises c5_registry_bad "ISA-95" rfl).2.1 rfl⟩

/-! ## C9 -/

/-- **C9, counterexample.** On an empty file list the ECLASS batch
entrypoint produces **no** artifact at all (the source prints an error and
returns before writing), contradicting the claim that each classifier
entrypoint yields an artifact with a zero total and empty domain
mappings. -/
theorem c9_counterexample_eclass_no_artifact :
    eclass_main [] = none ∧ ¬ ∃ art : EclassArtifact, eclass_main [] = some art := by
  refine ⟨rfl, ?_⟩
  rintro ⟨art, h⟩
  cases h

/-- **C9, amended.** The ISA-95 entrypoint on an empty corpus (schema
directory present or absent) does produce an artifact with
`total_definitions = 0` and all 15 domain mappings present but empty; the
ECLASS entrypoint instead returns without producing an artifact. -/
theorem c9_empty_corpus_artifacts :
    (isa95_main true []).total_definitions = 0 ∧
    (isa95_main false []).total_definitions = 0 ∧
    (isa95_main true []).domain_mappings.map Prod.fst =
      ["PowerConversion", "EnergyStorage", "Actuator", "Sensor", "ControlUnit",
       "UserInterface", "Thermal", "Fluidics", "Structural", "Transmission",
       "Protection", "Connectivity", "SoftwareModule", "Consumable", "Fastener"] ∧
    (∀ pr ∈ (isa95_main true []).domain_mappings,
      pr.2.isa95_type_ids = [] ∧ pr.2.isa95_types = []) ∧
    (isa95_main false []).domain_mappings = (isa95_main true []).domain_mappings ∧
    eclass_main [] = none := by
  refine ⟨rfl, rfl, by decide, ?_, rfl, rfl⟩
  decide

end NmisDpp
